import Mathlib

/-!
Verification of the query / cache / cohort core of the datathonDedalus
repository.  Python code is shallowly embedded: dictionaries become
association lists, pandas dataframes become lists of rows, exceptions
become `Except` / `Option` results, and the stateful methods become
functions from a state to a result together with the new state.
-/

namespace Datathon

/-- Python scalar values that occur in query dictionaries and table cells.
`none` stands for Python None and also for a pandas missing value (NaN). -/
inductive PyScalar where
  | none
  | int (n : Int)
  | str (s : String)
  | boolean (b : Bool)
  deriving DecidableEq, Repr

/-- A value stored under the value key of a query dictionary: either a
scalar or a list of scalars (the list form is used by the in and between
operations). -/
inductive PyVal where
  | scalar (s : PyScalar)
  | list (vs : List PyScalar)
  deriving DecidableEq, Repr

/-- The underlying query dictionary of the `Query` class in core/query.py.
Each of the four keys that the code reads may be present or absent; absent
keys are `Option.none`.  Elements of the criteria list are themselves
`Query` objects (the wrapped form produced by the builders the validator
expects). -/
inductive Query where
  | mk (field : Option String) (operation : Option String)
       (value : Option PyVal) (criteria : Option (List Query))

/-- core/query.py lines 26-31: the TYPE_OPERATIONS class attribute. -/
def TYPE_OPERATIONS : List (String × List String) :=
  [ ("int64", ["equals", "not_equals", "greater_than", "less_than"])
  , ("float64", ["equals", "not_equals", "greater_than", "less_than"])
  , ("object", ["equals", "not_equals"])
  , ("datetime64[ns]", ["equals", "not_equals", "greater_than", "less_than"]) ]

/-- Association-list lookup with propositional equality on the key,
embedding Python dictionary access. -/
def lookupKey (k : String) : List (String × α) → Option α
  | [] => Option.none
  | (k', v) :: rest => if k' = k then some v else lookupKey k rest

/-- TYPE_OPERATIONS.get(field_type, []) from core/query.py line 176. -/
def typeOperations (dtype : String) : List String :=
  (lookupKey dtype TYPE_OPERATIONS).getD []

/-- A schema as far as `Query.validate` reads it: the validator only ever
looks up a field and then reads the dtype entry of the per-column info
dictionary, so a schema is embedded as a map from column name to dtype. -/
abbrev Schema := List (String × String)

mutual

/-- core/query.py lines 138-187: `Query.validate`.  A dictionary whose
operation entry is and / or takes the compound branch, which folds the
validation of the children with all(); the children of a missing criteria
key default to the empty list.  Otherwise the leaf branch requires a
truthy field and operation, membership of the field in the schema, and
membership of the operation in the TYPE_OPERATIONS list for the dtype of
the field.  Every failure path returns false; the try/except wrapper means
the method never throws. -/
def Query.validate (schema : Schema) : Query → Bool
  | .mk field operation _value criteria =>
    if operation = some "and" ∨ operation = some "or" then
      match criteria with
      | some cs => Query.validateList schema cs
      | Option.none => true
    else
      match field, operation with
      | some f, some op =>
        if f = "" ∨ op = "" then false
        else if (lookupKey f schema).isNone then false
        else decide (op ∈ typeOperations ((lookupKey f schema).getD ""))
      | _, _ => false

/-- The all() fold over the criteria children inside `Query.validate`. -/
def Query.validateList (schema : Schema) : List Query → Bool
  | [] => true
  | q :: qs => Query.validate schema q && Query.validateList schema qs

end

theorem validateList_eq_all (schema : Schema) (cs : List Query) :
    Query.validateList schema cs = cs.all (fun c => c.validate schema) := by
  induction cs with
  | nil => rfl
  | cons q qs ih => simp [Query.validateList, List.all_cons, ih]

/-- The allowed-operator table exactly as the specification states it
(spec section 4.1); used only to compare the spec against the code. -/
def specTypeOperations : List (String × List String) :=
  [ ("int64", ["equals", "not_equals", "greater_than", "less_than",
               "greater_equal", "less_equal", "between", "in",
               "is_null", "is_not_null"])
  , ("float64", ["equals", "not_equals", "greater_than", "less_than",
                 "greater_equal", "less_equal", "between", "in",
                 "is_null", "is_not_null"])
  , ("object", ["equals", "not_equals", "contains", "in",
                "is_null", "is_not_null"])
  , ("datetime64[ns]", ["equals", "not_equals", "greater_than", "less_than",
                        "greater_equal", "less_equal", "between",
                        "is_null", "is_not_null"]) ]

/-- Claim C1 as stated is false: the leaf (Edad, between, [30, 40]) against
the schema mapping Edad to int64 satisfies the claimed right-hand side
(Edad is a schema key and between is in the spec table for int64), yet
`Query.validate` returns false, because the TYPE_OPERATIONS table in the
code only contains equals, not_equals, greater_than and less_than. -/
theorem c1_counterexample :
    Query.validate [("Edad", "int64")]
        (Query.mk (some "Edad") (some "between")
          (some (PyVal.list [PyScalar.int 30, PyScalar.int 40])) Option.none) = false
    ∧ (lookupKey "Edad" [("Edad", "int64")] = some "int64")
    ∧ "between" ∈ (lookupKey "int64" specTypeOperations).getD [] := by
  refine ⟨by decide, by decide, by decide⟩

/-- Claim C1, amended to the code: for a leaf expression whose operation is
neither and nor or, `Query.validate` returns true iff the field and the
operation are non-empty strings, the field is a key of the schema, and the
operation is in the TYPE_OPERATIONS list of the code for the dtype the
schema records for that field (int64, float64 and datetime64[ns] allow
equals, not_equals, greater_than, less_than; object allows equals,
not_equals; every other dtype allows nothing). -/
theorem c1_amended (schema : Schema) (f op : String) (v : PyVal)
    (hop : op ≠ "and" ∧ op ≠ "or") :
    Query.validate schema (Query.mk (some f) (some op) (some v) Option.none)
      = (f ≠ "" && op ≠ "" && (lookupKey f schema).isSome
          && decide (op ∈ typeOperations ((lookupKey f schema).getD ""))) := by
  have hne : ¬ (some op = some "and" ∨ some op = some "or") := by
    rintro (h | h) <;> [exact hop.1 (Option.some_injective _ h);
                        exact hop.2 (Option.some_injective _ h)]
  unfold Query.validate
  rw [if_neg hne]
  by_cases hf : f = ""
  · simp [hf]
  · by_cases ho : op = ""
    · simp [ho]
    · by_cases hl : (lookupKey f schema).isNone
      · simp [hf, ho, hl, Option.isNone_iff_eq_none.mp hl]
      · have : (lookupKey f schema).isSome := by
          cases h : lookupKey f schema with
          | none => exact absurd (by simp [h]) hl
          | some d => simp
        simp [hf, ho, hl, this]

/-- Witness for c1_amended at a concrete input: the leaf
(Edad, greater_than, 40) against the schema mapping Edad to int64. -/
theorem c1_amended_witness :
    Query.validate [("Edad", "int64")]
        (Query.mk (some "Edad") (some "greater_than")
          (some (PyVal.scalar (PyScalar.int 40))) Option.none)
      = (("Edad" : String) ≠ "" && ("greater_than" : String) ≠ ""
          && (lookupKey "Edad" [("Edad", "int64")]).isSome
          && decide ("greater_than" ∈
              typeOperations ((lookupKey "Edad" [("Edad", "int64")]).getD ""))) :=
  c1_amended [("Edad", "int64")] "Edad" "greater_than" (PyVal.scalar (PyScalar.int 40))
    (by exact ⟨by decide, by decide⟩)

/-- Claim C2 as stated is false: it requires criteria to be a non-empty
list for a compound node to validate, but `Query.validate` folds all()
over the children without any emptiness check, so the compound node with
operation and and an empty criteria list validates to true against the
empty schema. -/
theorem c2_counterexample :
    Query.validate [] (Query.mk Option.none (some "and") Option.none (some [])) = true := by
  decide

/-- Claim C2, amended to the code: on a node whose operation entry is and
or or, `Query.validate` returns true iff every child in the criteria list
validates against the same schema, regardless of whether the operation is
and or or; an empty (or absent) criteria list therefore validates
vacuously to true, and no non-emptiness check is performed. -/
theorem c2_amended (schema : Schema) (field : Option String) (op : String)
    (v : Option PyVal) (cs : List Query) (hop : op = "and" ∨ op = "or") :
    Query.validate schema (Query.mk field (some op) v (some cs))
      = cs.all (fun c => c.validate schema) := by
  have h : some op = some "and" ∨ some op = some "or" := by
    rcases hop with h | h <;> simp [h]
  rw [← validateList_eq_all]
  unfold Query.validate
  rw [if_pos h]

/-- Witness for c2_amended: a compound and node with one valid and one
invalid child validates to false, matching the fold over the children. -/
theorem c2_amended_witness :
    Query.validate [("Edad", "int64")]
        (Query.mk Option.none (some "and") Option.none
          (some [ Query.mk (some "Edad") (some "greater_than")
                    (some (PyVal.scalar (PyScalar.int 40))) Option.none
                , Query.mk (some "Edad") (some "contains")
                    (some (PyVal.scalar (PyScalar.str "x"))) Option.none ]))
      = [ Query.mk (some "Edad") (some "greater_than")
            (some (PyVal.scalar (PyScalar.int 40))) Option.none
        , Query.mk (some "Edad") (some "contains")
            (some (PyVal.scalar (PyScalar.str "x"))) Option.none
        ].all (fun c => c.validate [("Edad", "int64")]) :=
  c2_amended [("Edad", "int64")] Option.none "and" Option.none _ (Or.inl rfl)

/-! ## Cache layer: core/preparser.py -/

/-- Python dict pop / OrderedDict pop on an association list: remove the
entry carrying the given key (the first one; keys are unique in a dict). -/
def eraseKey (k : String) : List (String × α) → List (String × α)
  | [] => []
  | (k', v) :: rest => if k' = k then rest else (k', v) :: eraseKey k rest

/-- Python dict assignment d[k] = v on an association list: overwrite the
entry in place when the key exists, otherwise append a new entry. -/
def setKey (k : String) (v : α) : List (String × α) → List (String × α)
  | [] => [(k, v)]
  | (k', v') :: rest => if k' = k then (k, v) :: rest else (k', v') :: setKey k v rest

/-- State of core/preparser.py `Preparser`: the OrderedDict cache is an
association list in recency order (least recently used first, most
recently used last), cache_usage is the usage-count dict. -/
structure Preparser (V : Type) where
  max_cache_size : Nat
  cache : List (String × V)
  cache_usage : List (String × Nat)

/-- A fresh Preparser as built by the constructor. -/
def Preparser.empty (V : Type) (maxSize : Nat) : Preparser V :=
  ⟨maxSize, [], []⟩

/-- Usage count of a key, cache_usage.get(k, 0). -/
def Preparser.usageOf (st : Preparser V) (k : String) : Nat :=
  (lookupKey k st.cache_usage).getD 0

/-- Python min(candidates, key=f): the first element attaining the minimal
key; min of an empty list raises ValueError, embedded as `Option.none`
(the call sites below only reach it with a nonempty list). -/
def pyMinBy (f : String → Nat) : List String → Option String
  | [] => Option.none
  | x :: xs => some (xs.foldl (fun best a => if f a < f best then a else best) x)

/-- core/preparser.py lines 74-88: `_remove_least_valuable_entry`.  Takes
the first 5 keys in recency order, finds the least used among them, and
pops that key from both dicts. -/
def Preparser.remove_least_valuable_entry (st : Preparser V) : Preparser V :=
  match pyMinBy st.usageOf ((st.cache.map Prod.fst).take 5) with
  | some least_used =>
      { st with cache := eraseKey least_used st.cache
              , cache_usage := eraseKey least_used st.cache_usage }
  | Option.none => st

/-- core/preparser.py lines 48-72: `update_cache`.  An existing key is
popped and re-inserted at the most-recently-used end with its usage count
bumped; a fresh key triggers an eviction when the cache is at (or above)
capacity and is then appended with usage count 1. -/
def Preparser.update_cache (st : Preparser V) (k : String) (v : V) : Preparser V :=
  if (lookupKey k st.cache).isSome then
    { st with cache := eraseKey k st.cache ++ [(k, v)]
            , cache_usage := setKey k ((lookupKey k st.cache_usage).getD 0 + 1) st.cache_usage }
  else if st.max_cache_size ≤ st.cache.length then
    { st.remove_least_valuable_entry with
        cache := st.remove_least_valuable_entry.cache ++ [(k, v)]
      , cache_usage := setKey k 1 st.remove_least_valuable_entry.cache_usage }
  else
    { st with cache := st.cache ++ [(k, v)]
            , cache_usage := setKey k 1 st.cache_usage }

/-- A sequence of update_cache calls, oldest first. -/
def Preparser.insertAll (st : Preparser V) (ops : List (String × V)) : Preparser V :=
  ops.foldl (fun s kv => s.update_cache kv.1 kv.2) st

theorem lookupKey_isSome_iff (k : String) (l : List (String × α)) :
    (lookupKey k l).isSome ↔ k ∈ l.map Prod.fst := by
  induction l with
  | nil => simp [lookupKey]
  | cons p rest ih =>
    obtain ⟨k', v⟩ := p
    by_cases h : k' = k
    · subst h
      simp [lookupKey]
    · simp only [lookupKey, if_neg h, List.map_cons, List.mem_cons]
      rw [ih]
      constructor
      · exact fun hm => Or.inr hm
      · rintro (hm | hm)
        · exact absurd hm.symm h
        · exact hm

theorem eraseKey_of_not_mem {k : String} {l : List (String × α)}
    (h : k ∉ l.map Prod.fst) : eraseKey k l = l := by
  induction l with
  | nil => rfl
  | cons p rest ih =>
    obtain ⟨k', v⟩ := p
    simp only [List.map_cons, List.mem_cons] at h
    push_neg at h
    simp [eraseKey, Ne.symm h.1, ih h.2]

theorem length_eraseKey_add_one {k : String} {l : List (String × α)}
    (h : k ∈ l.map Prod.fst) : (eraseKey k l).length + 1 = l.length := by
  induction l with
  | nil => simp at h
  | cons p rest ih =>
    obtain ⟨k', v⟩ := p
    by_cases hk : k' = k
    · simp [eraseKey, hk]
    · simp only [List.map_cons, List.mem_cons] at h
      rcases h with h | h
      · exact absurd h.symm hk
      · simp [eraseKey, hk, ih h]

theorem mem_map_fst_eraseKey {k x : String} {l : List (String × α)}
    (h : x ∈ (eraseKey k l).map Prod.fst) : x ∈ l.map Prod.fst := by
  induction l with
  | nil => simpa [eraseKey] using h
  | cons p rest ih =>
    obtain ⟨k', v⟩ := p
    by_cases hk : k' = k
    · simp only [eraseKey, if_pos hk] at h
      simp [h]
    · simp only [eraseKey, if_neg hk, List.map_cons, List.mem_cons] at h ⊢
      rcases h with h | h
      · exact Or.inl h
      · exact Or.inr (ih h)

theorem nodup_map_fst_eraseKey {k : String} {l : List (String × α)}
    (h : (l.map Prod.fst).Nodup) : ((eraseKey k l).map Prod.fst).Nodup := by
  induction l with
  | nil => simp [eraseKey]
  | cons p rest ih =>
    obtain ⟨k', v⟩ := p
    simp only [List.map_cons, List.nodup_cons] at h
    by_cases hk : k' = k
    · simpa [eraseKey, hk] using h.2
    · simp only [eraseKey, if_neg hk, List.map_cons, List.nodup_cons]
      exact ⟨fun hmem => h.1 (mem_map_fst_eraseKey hmem), ih h.2⟩

theorem not_mem_map_fst_eraseKey {k : String} {l : List (String × α)}
    (h : (l.map Prod.fst).Nodup) : k ∉ (eraseKey k l).map Prod.fst := by
  induction l with
  | nil => simp [eraseKey]
  | cons p rest ih =>
    obtain ⟨k', v⟩ := p
    simp only [List.map_cons, List.nodup_cons] at h
    by_cases hk : k' = k
    · subst hk
      simp only [eraseKey, if_pos rfl]
      exact fun hmem => h.1 hmem
    · simp only [eraseKey, if_neg hk, List.map_cons, List.mem_cons]
      push_neg
      exact ⟨fun he => hk he.symm, ih h.2⟩

theorem eraseKey_append_singleton {k : String} {v : α} {l : List (String × α)}
    (h : k ∉ l.map Prod.fst) : eraseKey k (l ++ [(k, v)]) = l := by
  induction l with
  | nil => simp [eraseKey]
  | cons p rest ih =>
    obtain ⟨k', v'⟩ := p
    simp only [List.map_cons, List.mem_cons] at h
    push_neg at h
    simp [eraseKey, Ne.symm h.1, ih h.2]

theorem lookupKey_setKey_self (k : String) (v : α) (l : List (String × α)) :
    lookupKey k (setKey k v l) = some v := by
  induction l with
  | nil => simp [setKey, lookupKey]
  | cons p rest ih =>
    obtain ⟨k', v'⟩ := p
    by_cases h : k' = k <;> simp [setKey, lookupKey, h, ih]

theorem lookupKey_setKey_other {k k' : String} (hne : k' ≠ k) (v : α)
    (l : List (String × α)) :
    lookupKey k' (setKey k v l) = lookupKey k' l := by
  have hk : ¬ (k = k') := fun hh => hne hh.symm
  induction l with
  | nil => simp [setKey, lookupKey, hk]
  | cons p rest ih =>
    obtain ⟨k'', v'⟩ := p
    by_cases h : k'' = k
    · have h2 : ¬ (k'' = k') := fun hh => hk (h ▸ hh)
      simp [setKey, h, lookupKey, hk, h2]
    · by_cases h2 : k'' = k' <;> simp [setKey, h, lookupKey, h2, ih, hne]

/-- Decomposition of the Python min fold: the result splits the candidate
list into a strictly-larger prefix, the chosen element, and a
greater-or-equal suffix.  This is exactly the first element attaining the
minimum (ties broken in favor of the earliest candidate). -/
theorem foldlMin_decomp (f : String → Nat) :
    ∀ (xs : List String) (x : String),
      ∃ l1 l2,
        x :: xs = l1 ++ (xs.foldl (fun best a => if f a < f best then a else best) x) :: l2
        ∧ (∀ z ∈ l1, f (xs.foldl (fun best a => if f a < f best then a else best) x) < f z)
        ∧ (∀ z ∈ l2, f (xs.foldl (fun best a => if f a < f best then a else best) x) ≤ f z) := by
  intro xs
  induction xs with
  | nil =>
    intro x
    exact ⟨[], [], rfl, by simp, by simp⟩
  | cons a rest ih =>
    intro x
    simp only [List.foldl_cons]
    by_cases h : f a < f x
    · rw [if_pos h]
      obtain ⟨l1, l2, hdec, hlt, hle⟩ := ih a
      set m := rest.foldl (fun best a => if f a < f best then a else best) a with hm
      have hma : f m ≤ f a := by
        cases l1 with
        | nil =>
          have : a = m := by simpa using congrArg (fun l => l.head?) hdec
          simp [this]
        | cons y l1' =>
          have hya : a = y := by simpa using congrArg (fun l => l.head?) hdec
          subst hya
          exact le_of_lt (hlt a (by simp))
      refine ⟨x :: l1, l2, ?_, ?_, hle⟩
      · simp [hdec]
      · intro z hz
        rcases List.mem_cons.mp hz with hz | hz
        · subst hz
          exact lt_of_le_of_lt hma h
        · exact hlt z hz
    · rw [if_neg h]
      obtain ⟨l1, l2, hdec, hlt, hle⟩ := ih x
      set m := rest.foldl (fun best a => if f a < f best then a else best) x with hm
      cases l1 with
      | nil =>
        have hxm : x = m := by simpa using congrArg (fun l => l.head?) hdec
        have hrest : rest = l2 := by simpa [← hxm] using hdec
        refine ⟨[], a :: rest, by simp [← hxm], by simp, ?_⟩
        intro z hz
        rcases List.mem_cons.mp hz with hz | hz
        · subst hz
          rw [← hxm]
          exact le_of_not_lt h
        · exact hle z (hrest ▸ hz)
      | cons y l1' =>
        have hyx : x = y := by simpa using congrArg (fun l => l.head?) hdec
        subst hyx
        have hrest : rest = l1' ++ m :: l2 := by simpa using hdec
        have hmx : f m < f x := hlt x (by simp)
        refine ⟨x :: a :: l1', l2, ?_, ?_, hle⟩
        · simp [hrest]
        · intro z hz
          rcases List.mem_cons.mp hz with hz | hz
          · subst hz; exact hmx
          · rcases List.mem_cons.mp hz with hz | hz
            · subst hz
              exact lt_of_lt_of_le hmx (le_of_not_lt h)
            · exact hlt z (List.mem_cons_of_mem x hz)

/-- pyMinBy on a nonempty list yields the first element attaining the
minimum, phrased through the prefix / suffix decomposition. -/
theorem pyMinBy_spec (f : String → Nat) (l : List String) (hne : l ≠ []) :
    ∃ m l1 l2, pyMinBy f l = some m ∧ l = l1 ++ m :: l2
      ∧ (∀ z ∈ l1, f m < f z) ∧ (∀ z ∈ l2, f m ≤ f z) := by
  cases l with
  | nil => exact absurd rfl hne
  | cons x xs =>
    obtain ⟨l1, l2, hdec, hlt, hle⟩ := foldlMin_decomp f xs x
    exact ⟨_, l1, l2, rfl, hdec, hlt, hle⟩

theorem remove_entry_of_nonempty {V : Type} (st : Preparser V)
    (h : st.cache ≠ []) :
    ∃ m, m ∈ st.cache.map Prod.fst
      ∧ pyMinBy st.usageOf ((st.cache.map Prod.fst).take 5) = some m
      ∧ st.remove_least_valuable_entry
          = { st with cache := eraseKey m st.cache
                    , cache_usage := eraseKey m st.cache_usage } := by
  have htake : (st.cache.map Prod.fst).take 5 ≠ [] := by
    cases hc : st.cache with
    | nil => exact absurd hc h
    | cons p rest => simp [hc]
  obtain ⟨m, l1, l2, hmin, hdec, _, _⟩ := pyMinBy_spec st.usageOf _ htake
  have hmem : m ∈ st.cache.map Prod.fst := by
    refine List.take_subset 5 _ ?_
    rw [hdec]
    simp
  refine ⟨m, hmem, hmin, ?_⟩
  unfold Preparser.remove_least_valuable_entry
  rw [hmin]

/-- Claim C3, confirmed: on a cache at capacity with a fresh key,
update_cache first evicts the entry whose key is the first usage-count
minimizer within the first five keys in recency order (the decomposition
l1 ++ evicted :: l2 of the 5-slice with strictly larger usage on l1 and
greater-or-equal usage on l2 says exactly that), and then appends the new
key with usage count 1; exactly one entry is removed, so the size is
unchanged. -/
theorem c3_theorem {V : Type} (st : Preparser V) (k : String) (v : V)
    (hcap : st.cache.length = st.max_cache_size)
    (hpos : 0 < st.max_cache_size)
    (hfresh : k ∉ st.cache.map Prod.fst) :
    ∃ evicted l1 l2,
      (st.cache.map Prod.fst).take 5 = l1 ++ evicted :: l2
      ∧ (∀ z ∈ l1, st.usageOf evicted < st.usageOf z)
      ∧ (∀ z ∈ l2, st.usageOf evicted ≤ st.usageOf z)
      ∧ (st.update_cache k v).cache = eraseKey evicted st.cache ++ [(k, v)]
      ∧ (st.update_cache k v).cache.length = st.cache.length
      ∧ (st.update_cache k v).usageOf k = 1 := by
  have hnotsome : ¬ (lookupKey k st.cache).isSome := by
    rw [lookupKey_isSome_iff]
    exact hfresh
  have hne : st.cache ≠ [] := by
    intro hnil
    rw [hnil] at hcap
    simp only [List.length_nil] at hcap
    omega
  have htake : (st.cache.map Prod.fst).take 5 ≠ [] := by
    cases hc : st.cache with
    | nil => exact absurd hc hne
    | cons p rest => simp [hc]
  obtain ⟨m, l1, l2, hmin, hdec, hlt, hle⟩ := pyMinBy_spec st.usageOf _ htake
  have hmemtake : m ∈ (st.cache.map Prod.fst).take 5 := by
    rw [hdec]
    simp
  have hmem : m ∈ st.cache.map Prod.fst := List.take_subset 5 _ hmemtake
  have hrm : st.remove_least_valuable_entry
      = { st with cache := eraseKey m st.cache
                , cache_usage := eraseKey m st.cache_usage } := by
    unfold Preparser.remove_least_valuable_entry
    rw [hmin]
  have hupd : st.update_cache k v
      = { st with cache := eraseKey m st.cache ++ [(k, v)]
                , cache_usage := setKey k 1 (eraseKey m st.cache_usage) } := by
    unfold Preparser.update_cache
    rw [if_neg hnotsome, if_pos (le_of_eq hcap.symm), hrm]
  refine ⟨m, l1, l2, hdec, hlt, hle, ?_, ?_, ?_⟩
  · rw [hupd]
  · rw [hupd]
    simp only [List.length_append, List.length_singleton]
    exact length_eraseKey_add_one hmem
  · rw [hupd]
    unfold Preparser.usageOf
    simp [lookupKey_setKey_self]

/-- Witness for c3_theorem: a six-entry cache at capacity 6; among the
five least recent keys a b c d e, b is the first with minimal usage. -/
theorem c3_theorem_witness :
    ∃ evicted l1 l2,
      (((⟨6, [("a", 0), ("b", 0), ("c", 0), ("d", 0), ("e", 0), ("f", 0)],
          [("a", 3), ("b", 1), ("c", 2), ("d", 1), ("e", 5), ("f", 1)]⟩ :
            Preparser Nat).cache.map Prod.fst).take 5) = l1 ++ evicted :: l2
      ∧ (∀ z ∈ l1, (⟨6, [("a", 0), ("b", 0), ("c", 0), ("d", 0), ("e", 0), ("f", 0)],
          [("a", 3), ("b", 1), ("c", 2), ("d", 1), ("e", 5), ("f", 1)]⟩ :
            Preparser Nat).usageOf evicted
          < (⟨6, [("a", 0), ("b", 0), ("c", 0), ("d", 0), ("e", 0), ("f", 0)],
          [("a", 3), ("b", 1), ("c", 2), ("d", 1), ("e", 5), ("f", 1)]⟩ :
            Preparser Nat).usageOf z)
      ∧ (∀ z ∈ l2, (⟨6, [("a", 0), ("b", 0), ("c", 0), ("d", 0), ("e", 0), ("f", 0)],
          [("a", 3), ("b", 1), ("c", 2), ("d", 1), ("e", 5), ("f", 1)]⟩ :
            Preparser Nat).usageOf evicted
          ≤ (⟨6, [("a", 0), ("b", 0), ("c", 0), ("d", 0), ("e", 0), ("f", 0)],
          [("a", 3), ("b", 1), ("c", 2), ("d", 1), ("e", 5), ("f", 1)]⟩ :
            Preparser Nat).usageOf z)
      ∧ ((⟨6, [("a", 0), ("b", 0), ("c", 0), ("d", 0), ("e", 0), ("f", 0)],
          [("a", 3), ("b", 1), ("c", 2), ("d", 1), ("e", 5), ("f", 1)]⟩ :
            Preparser Nat).update_cache "g" 9).cache
          = eraseKey evicted [("a", 0), ("b", 0), ("c", 0), ("d", 0), ("e", 0), ("f", 0)]
              ++ [("g", 9)]
      ∧ ((⟨6, [("a", 0), ("b", 0), ("c", 0), ("d", 0), ("e", 0), ("f", 0)],
          [("a", 3), ("b", 1), ("c", 2), ("d", 1), ("e", 5), ("f", 1)]⟩ :
            Preparser Nat).update_cache "g" 9).cache.length
          = [("a", 0), ("b", 0), ("c", 0), ("d", 0), ("e", 0), ("f", 0)].length
      ∧ ((⟨6, [("a", 0), ("b", 0), ("c", 0), ("d", 0), ("e", 0), ("f", 0)],
          [("a", 3), ("b", 1), ("c", 2), ("d", 1), ("e", 5), ("f", 1)]⟩ :
            Preparser Nat).update_cache "g" 9).usageOf "g" = 1 :=
  c3_theorem _ "g" 9 (by decide) (by decide) (by decide)

/-- Well-formedness of a cache state: keys are unique (they come from a
Python dict) and the size respects the configured maximum. -/
def CacheWF {V : Type} (st : Preparser V) : Prop :=
  (st.cache.map Prod.fst).Nodup ∧ st.cache.length ≤ st.max_cache_size

theorem update_cache_existing {V : Type} (st : Preparser V) (k : String) (v : V)
    (h : k ∈ st.cache.map Prod.fst) :
    st.update_cache k v
      = { st with cache := eraseKey k st.cache ++ [(k, v)]
                , cache_usage := setKey k ((lookupKey k st.cache_usage).getD 0 + 1)
                    st.cache_usage } := by
  unfold Preparser.update_cache
  rw [if_pos ((lookupKey_isSome_iff k st.cache).mpr h)]

theorem mem_map_fst_update_cache {V : Type} {st : Preparser V} {k x : String} {v : V}
    (h : x ∈ ((st.update_cache k v).cache.map Prod.fst)) :
    x ∈ st.cache.map Prod.fst ∨ x = k := by
  unfold Preparser.update_cache at h
  by_cases hmem : (lookupKey k st.cache).isSome
  · rw [if_pos hmem] at h
    simp only [List.map_append, List.map_cons, List.map_nil, List.mem_append,
      List.mem_cons, List.not_mem_nil, or_false] at h
    rcases h with h | h
    · exact Or.inl (mem_map_fst_eraseKey h)
    · exact Or.inr h
  · rw [if_neg hmem] at h
    by_cases hc : st.max_cache_size ≤ st.cache.length
    · rw [if_pos hc] at h
      simp only [List.map_append, List.map_cons, List.map_nil, List.mem_append,
        List.mem_cons, List.not_mem_nil, or_false] at h
      rcases h with h | h
      · left
        unfold Preparser.remove_least_valuable_entry at h
        cases hm : pyMinBy st.usageOf ((st.cache.map Prod.fst).take 5) with
        | none =>
          rw [hm] at h
          exact h
        | some m =>
          rw [hm] at h
          exact mem_map_fst_eraseKey h
      · exact Or.inr h
    · rw [if_neg hc] at h
      simp only [List.map_append, List.map_cons, List.map_nil, List.mem_append,
        List.mem_cons, List.not_mem_nil, or_false] at h
      exact h

theorem update_cache_max {V : Type} (st : Preparser V) (k : String) (v : V) :
    (st.update_cache k v).max_cache_size = st.max_cache_size := by
  unfold Preparser.update_cache
  by_cases h1 : (lookupKey k st.cache).isSome
  · rw [if_pos h1]
  · rw [if_neg h1]
    by_cases h2 : st.max_cache_size ≤ st.cache.length
    · rw [if_pos h2]
      show st.remove_least_valuable_entry.max_cache_size = st.max_cache_size
      unfold Preparser.remove_least_valuable_entry
      cases hm : pyMinBy st.usageOf ((st.cache.map Prod.fst).take 5) <;> rfl
    · rw [if_neg h2]

theorem update_cache_length_fresh {V : Type} (st : Preparser V) (k : String) (v : V)
    (hfresh : k ∉ st.cache.map Prod.fst) (hpos : 0 < st.max_cache_size)
    (hwf : CacheWF st) :
    (st.update_cache k v).cache.length
      = min (st.cache.length + 1) st.max_cache_size := by
  have hnot : ¬ (lookupKey k st.cache).isSome := by
    rw [lookupKey_isSome_iff]
    exact hfresh
  unfold Preparser.update_cache
  rw [if_neg hnot]
  by_cases hc : st.max_cache_size ≤ st.cache.length
  · rw [if_pos hc]
    have hfull : st.cache.length = st.max_cache_size := le_antisymm hwf.2 hc
    have hne : st.cache ≠ [] := by
      intro hnil
      rw [hnil] at hfull
      simp only [List.length_nil] at hfull
      omega
    obtain ⟨m, hmem, _, hrm⟩ := remove_entry_of_nonempty st hne
    rw [hrm]
    simp only [List.length_append, List.length_singleton]
    have := length_eraseKey_add_one (l := st.cache) hmem
    rw [hfull, min_eq_right (Nat.le_succ _)]
    omega
  · rw [if_neg hc]
    simp only [List.length_append, List.length_singleton]
    rw [min_eq_left (by omega)]

theorem update_cache_wf {V : Type} (st : Preparser V) (k : String) (v : V)
    (hpos : 0 < st.max_cache_size) (hwf : CacheWF st) :
    CacheWF (st.update_cache k v) := by
  by_cases hmem : k ∈ st.cache.map Prod.fst
  · rw [update_cache_existing st k v hmem]
    constructor
    · simp only [List.map_append, List.map_cons, List.map_nil]
      rw [List.nodup_append]
      refine ⟨nodup_map_fst_eraseKey hwf.1, List.nodup_singleton k, ?_⟩
      intro x hx hx2
      simp only [List.mem_singleton] at hx2
      subst hx2
      exact not_mem_map_fst_eraseKey hwf.1 hx
    · simp only [List.length_append, List.length_singleton]
      have := length_eraseKey_add_one (l := st.cache) hmem
      have hle := hwf.2
      omega
  · have hnot : ¬ (lookupKey k st.cache).isSome := by
      rw [lookupKey_isSome_iff]
      exact hmem
    have hlen := update_cache_length_fresh st k v hmem hpos hwf
    constructor
    · unfold Preparser.update_cache
      rw [if_neg hnot]
      by_cases hc : st.max_cache_size ≤ st.cache.length
      · rw [if_pos hc]
        have hfull : st.cache.length = st.max_cache_size := le_antisymm hwf.2 hc
        have hne : st.cache ≠ [] := by
          intro hnil
          rw [hnil] at hfull
          simp only [List.length_nil] at hfull
          omega
        obtain ⟨m, hmmem, _, hrm⟩ := remove_entry_of_nonempty st hne
        rw [hrm]
        simp only [List.map_append, List.map_cons, List.map_nil]
        rw [List.nodup_append]
        refine ⟨nodup_map_fst_eraseKey hwf.1, List.nodup_singleton k, ?_⟩
        intro x hx hx2
        simp only [List.mem_singleton] at hx2
        subst hx2
        exact hmem (mem_map_fst_eraseKey hx)
      · rw [if_neg hc]
        simp only [List.map_append, List.map_cons, List.map_nil]
        rw [List.nodup_append]
        refine ⟨hwf.1, List.nodup_singleton k, ?_⟩
        intro x hx hx2
        simp only [List.mem_singleton] at hx2
        subst hx2
        exact hmem hx
    · rw [update_cache_max]
      by_cases hmemk : k ∈ st.cache.map Prod.fst
      · exact absurd hmemk hmem
      · rw [hlen]
        omega

theorem insertAll_wf {V : Type} (ops : List (String × V)) :
    ∀ (st : Preparser V), 0 < st.max_cache_size → CacheWF st →
      CacheWF (st.insertAll ops)
        ∧ (st.insertAll ops).max_cache_size = st.max_cache_size := by
  induction ops with
  | nil => exact fun st _ hwf => ⟨hwf, rfl⟩
  | cons kv rest ih =>
    intro st hpos hwf
    have hstep := update_cache_wf st kv.1 kv.2 hpos hwf
    have hmax := update_cache_max st kv.1 kv.2
    have hpos' : 0 < (st.update_cache kv.1 kv.2).max_cache_size := by
      rw [hmax]
      exact hpos
    obtain ⟨h1, h2⟩ := ih (st.update_cache kv.1 kv.2) hpos' hstep
    exact ⟨h1, by rw [Preparser.insertAll] at h2 ⊢; rw [List.foldl_cons] at *; rw [h2, hmax]⟩

theorem insertAll_fresh_count {V : Type} (v : V) :
    ∀ (ks : List String) (st : Preparser V),
      0 < st.max_cache_size → CacheWF st → ks.Nodup →
      (∀ x ∈ ks, x ∉ st.cache.map Prod.fst) →
      (st.insertAll (ks.map (fun k => (k, v)))).cache.length
        = min (st.cache.length + ks.length) st.max_cache_size := by
  intro ks
  induction ks with
  | nil =>
    intro st hpos hwf _ _
    simp only [List.map_nil, Preparser.insertAll, List.foldl_nil, List.length_nil,
      Nat.add_zero]
    exact (min_eq_left hwf.2).symm
  | cons k rest ih =>
    intro st hpos hwf hnd hfresh
    have hk : k ∉ st.cache.map Prod.fst := hfresh k (by simp)
    have hlen := update_cache_length_fresh st k v hk hpos hwf
    have hwf' := update_cache_wf st k v hpos hwf
    have hmax := update_cache_max st k v
    have hpos' : 0 < (st.update_cache k v).max_cache_size := by
      rw [hmax]
      exact hpos
    have hfresh' : ∀ x ∈ rest, x ∉ (st.update_cache k v).cache.map Prod.fst := by
      intro x hx hmem
      rcases mem_map_fst_update_cache hmem with hm | hm
      · exact hfresh x (List.mem_cons_of_mem k hx) hm
      · subst hm
        exact (List.nodup_cons.mp hnd).1 hx
    have := ih (st.update_cache k v) hpos' hwf' (List.nodup_cons.mp hnd).2 hfresh'
    simp only [List.map_cons, Preparser.insertAll, List.foldl_cons] at *
    rw [this, hlen, hmax]
    have hb : st.cache.length ≤ st.max_cache_size := hwf.2
    simp only [List.length_cons]
    rcases le_or_lt (st.cache.length + 1) st.max_cache_size with hca | hca
    · rw [min_eq_left hca]
      congr 1
      omega
    · have h1 : min (st.cache.length + 1) st.max_cache_size = st.max_cache_size :=
        min_eq_right (by omega)
      rw [h1, min_eq_right (Nat.le_add_right _ _), min_eq_right (by omega)]

/-- Claim C4, confirmed: starting from an empty Preparser with positive
maximum size, no sequence of update_cache calls ever pushes the cache
size above the maximum, and inserting maxSize + 1 distinct keys leaves
exactly maxSize entries. -/
theorem c4_theorem {V : Type} (maxSize : Nat) (hpos : 0 < maxSize)
    (ops : List (String × V)) (ks : List String) (v : V)
    (hnd : ks.Nodup) (hlen : ks.length = maxSize + 1) :
    ((Preparser.empty V maxSize).insertAll ops).cache.length ≤ maxSize
    ∧ ((Preparser.empty V maxSize).insertAll (ks.map (fun k => (k, v)))).cache.length
        = maxSize := by
  have hwf : CacheWF (Preparser.empty V maxSize) := by
    constructor
    · simp [Preparser.empty]
    · simp [Preparser.empty]
  constructor
  · have := insertAll_wf ops (Preparser.empty V maxSize) hpos hwf
    have h2 := this.1.2
    rw [this.2] at h2
    exact h2
  · have := insertAll_fresh_count v ks (Preparser.empty V maxSize) hpos hwf hnd
      (by simp [Preparser.empty])
    rw [this]
    simp only [Preparser.empty, List.length_nil, Nat.zero_add, hlen]
    exact min_eq_right (Nat.le_succ _)

/-- Witness for c4_theorem: capacity 2, an arbitrary call sequence of
length four, and three distinct keys. -/
theorem c4_theorem_witness :
    ((Preparser.empty Nat 2).insertAll
        [("a", 0), ("b", 0), ("c", 0), ("a", 0)]).cache.length ≤ 2
    ∧ ((Preparser.empty Nat 2).insertAll
        (["x", "y", "z"].map (fun k => (k, (0 : Nat))))).cache.length = 2 :=
  c4_theorem 2 (by decide) [("a", 0), ("b", 0), ("c", 0), ("a", 0)]
    ["x", "y", "z"] 0 (by decide) (by decide)

/-- Claim C9, confirmed: with k already cached, a second identical
update_cache call reproduces exactly the cache of the first call (same
entries, same size, k at the most-recently-used tail), and each call
increments the usage counter of k by one while leaving every other usage
counter unchanged. -/
theorem c9_theorem {V : Type} (st : Preparser V) (k : String) (v : V)
    (hmem : k ∈ st.cache.map Prod.fst)
    (hnodup : (st.cache.map Prod.fst).Nodup) :
    ((st.update_cache k v).update_cache k v).cache = (st.update_cache k v).cache
    ∧ ((st.update_cache k v).update_cache k v).cache.length
        = (st.update_cache k v).cache.length
    ∧ (st.update_cache k v).cache.getLast? = some (k, v)
    ∧ ((st.update_cache k v).update_cache k v).cache.getLast? = some (k, v)
    ∧ (st.update_cache k v).usageOf k = st.usageOf k + 1
    ∧ ((st.update_cache k v).update_cache k v).usageOf k
        = (st.update_cache k v).usageOf k + 1
    ∧ ∀ k', k' ≠ k →
        ((st.update_cache k v).update_cache k v).usageOf k'
          = (st.update_cache k v).usageOf k' := by
  have h1 := update_cache_existing st k v hmem
  have hmem1 : k ∈ (st.update_cache k v).cache.map Prod.fst := by
    rw [h1]
    simp
  have h2 := update_cache_existing (st.update_cache k v) k v hmem1
  have hkerase : k ∉ (eraseKey k st.cache).map Prod.fst :=
    not_mem_map_fst_eraseKey hnodup
  have hcache1 : (st.update_cache k v).cache = eraseKey k st.cache ++ [(k, v)] := by
    rw [h1]
  have hcache2 : ((st.update_cache k v).update_cache k v).cache
      = eraseKey k st.cache ++ [(k, v)] := by
    rw [h2, hcache1, eraseKey_append_singleton hkerase]
  have husage1 : (st.update_cache k v).usageOf k = st.usageOf k + 1 := by
    rw [h1]
    unfold Preparser.usageOf
    simp [lookupKey_setKey_self]
  refine ⟨by rw [hcache2, hcache1], by rw [hcache2, hcache1], ?_, ?_, husage1, ?_, ?_⟩
  · rw [hcache1]
    simp
  · rw [hcache2]
    simp
  · rw [h2]
    unfold Preparser.usageOf
    simp [lookupKey_setKey_self]
  · intro k' hne
    rw [h2]
    unfold Preparser.usageOf
    simp only
    rw [lookupKey_setKey_other hne]

/-- Witness for c9_theorem on a two-entry cache holding the key k. -/
theorem c9_theorem_witness :
    (((⟨10, [("a", 1), ("k", 2)], [("a", 1), ("k", 4)]⟩ :
        Preparser Nat).update_cache "k" 7).update_cache "k" 7).cache
        = ((⟨10, [("a", 1), ("k", 2)], [("a", 1), ("k", 4)]⟩ :
        Preparser Nat).update_cache "k" 7).cache
    ∧ (((⟨10, [("a", 1), ("k", 2)], [("a", 1), ("k", 4)]⟩ :
        Preparser Nat).update_cache "k" 7).update_cache "k" 7).cache.length
        = ((⟨10, [("a", 1), ("k", 2)], [("a", 1), ("k", 4)]⟩ :
        Preparser Nat).update_cache "k" 7).cache.length
    ∧ ((⟨10, [("a", 1), ("k", 2)], [("a", 1), ("k", 4)]⟩ :
        Preparser Nat).update_cache "k" 7).cache.getLast? = some ("k", 7)
    ∧ (((⟨10, [("a", 1), ("k", 2)], [("a", 1), ("k", 4)]⟩ :
        Preparser Nat).update_cache "k" 7).update_cache "k" 7).cache.getLast?
        = some ("k", 7)
    ∧ ((⟨10, [("a", 1), ("k", 2)], [("a", 1), ("k", 4)]⟩ :
        Preparser Nat).update_cache "k" 7).usageOf "k"
        = (⟨10, [("a", 1), ("k", 2)], [("a", 1), ("k", 4)]⟩ :
        Preparser Nat).usageOf "k" + 1
    ∧ (((⟨10, [("a", 1), ("k", 2)], [("a", 1), ("k", 4)]⟩ :
        Preparser Nat).update_cache "k" 7).update_cache "k" 7).usageOf "k"
        = ((⟨10, [("a", 1), ("k", 2)], [("a", 1), ("k", 4)]⟩ :
        Preparser Nat).update_cache "k" 7).usageOf "k" + 1
    ∧ ∀ k', k' ≠ "k" →
        (((⟨10, [("a", 1), ("k", 2)], [("a", 1), ("k", 4)]⟩ :
        Preparser Nat).update_cache "k" 7).update_cache "k" 7).usageOf k'
          = ((⟨10, [("a", 1), ("k", 2)], [("a", 1), ("k", 4)]⟩ :
        Preparser Nat).update_cache "k" 7).usageOf k' :=
  c9_theorem _ "k" 7 (by decide) (by decide)

/-! ## Cohort engine, row combination: core/data_manager.py -/

/-- A dataframe row: one cell per column, keyed by column name. -/
abbrev Row := List (String × PyScalar)

/-- Python str.lower(), character by character (the operation strings the
code lowercases are ASCII). -/
def pyLower (s : String) : String := String.mk (s.data.map Char.toLower)

/-- pandas drop_duplicates with the default keep=first: the first
occurrence of every row value survives, later equal rows are dropped;
rows are compared by their entire contents. -/
def dropDupAux : List Row → List Row → List Row
  | [], _ => []
  | r :: rs, seen =>
    if r ∈ seen then dropDupAux rs seen else r :: dropDupAux rs (r :: seen)

def drop_duplicates (l : List Row) : List Row := dropDupAux l []

/-- pandas merge(df1, df2, how=inner) between two frames over the same
columns: with no `on` argument the join keys are all shared columns, so
the output contains one copy of r for every pair of equal rows. -/
def mergeInnerAllColumns (df1 df2 : List Row) : List Row :=
  df1.flatMap (fun r1 => (df2.filter (fun r2 => r2 = r1)).map (fun _ => r1))

/-- core/data_manager.py lines 270-312: `_apply_operation_to_dataframes`.
and is an inner merge of the two frames, or is concat followed by
drop_duplicates, anything else raises. -/
def apply_operation_to_dataframes (df1 df2 : List Row) (operation : String) :
    Except String (List Row) :=
  if pyLower operation = "and" then Except.ok (mergeInnerAllColumns df1 df2)
  else if pyLower operation = "or" then Except.ok (drop_duplicates (df1 ++ df2))
  else Except.error "Unsupported operation"

theorem mem_mergeInnerAllColumns {df1 df2 : List Row} {a : Row} :
    a ∈ mergeInnerAllColumns df1 df2 ↔ a ∈ df1 ∧ a ∈ df2 := by
  unfold mergeInnerAllColumns
  simp only [List.mem_flatMap, List.mem_map, List.mem_filter, decide_eq_true_eq]
  constructor
  · rintro ⟨r1, hr1, x, ⟨hx2, rfl⟩, rfl⟩
    exact ⟨hr1, hx2⟩
  · rintro ⟨h1, h2⟩
    exact ⟨a, h1, a, ⟨h2, rfl⟩, rfl⟩

theorem mem_dropDupAux {a : Row} :
    ∀ (l seen : List Row), a ∈ dropDupAux l seen ↔ a ∈ l ∧ a ∉ seen := by
  intro l
  induction l with
  | nil => intro seen; simp [dropDupAux]
  | cons r rs ih =>
    intro seen
    by_cases h : r ∈ seen
    · rw [dropDupAux, if_pos h, ih]
      constructor
      · rintro ⟨h1, h2⟩
        exact ⟨List.mem_cons_of_mem r h1, h2⟩
      · rintro ⟨h1, h2⟩
        rcases List.mem_cons.mp h1 with h1 | h1
        · subst h1; exact absurd h h2
        · exact ⟨h1, h2⟩
    · rw [dropDupAux, if_neg h]
      constructor
      · intro hm
        rcases List.mem_cons.mp hm with hm | hm
        · subst hm; exact ⟨List.mem_cons_self a rs, h⟩
        · obtain ⟨h1, h2⟩ := (ih (r :: seen)).mp hm
          refine ⟨List.mem_cons_of_mem r h1, fun hs => h2 (List.mem_cons_of_mem r hs)⟩
      · rintro ⟨h1, h2⟩
        rcases List.mem_cons.mp h1 with h1 | h1
        · subst h1; exact List.mem_cons_self a _
        · by_cases har : a = r
          · subst har; exact List.mem_cons_self a _
          · exact List.mem_cons_of_mem r ((ih (r :: seen)).mpr
              ⟨h1, fun hs => (List.mem_cons.mp hs).elim har h2⟩)

theorem nodup_dropDupAux : ∀ (l seen : List Row), (dropDupAux l seen).Nodup := by
  intro l
  induction l with
  | nil => intro seen; simp [dropDupAux]
  | cons r rs ih =>
    intro seen
    by_cases h : r ∈ seen
    · rw [dropDupAux, if_pos h]; exact ih seen
    · rw [dropDupAux, if_neg h]
      refine List.nodup_cons.mpr ⟨?_, ih (r :: seen)⟩
      intro hmem
      exact ((mem_dropDupAux rs (r :: seen)).mp hmem).2 (List.mem_cons_self r seen)

/-- Claim C5, confirmed: combining two row-sets with and yields exactly
the set intersection and combining with or yields the duplicate-free set
union, where rows are identified by their entire contents. -/
theorem c5_theorem (df1 df2 : List Row) :
    ∃ andRes orRes,
      apply_operation_to_dataframes df1 df2 "and" = Except.ok andRes
      ∧ apply_operation_to_dataframes df1 df2 "or" = Except.ok orRes
      ∧ andRes.toFinset = df1.toFinset ∩ df2.toFinset
      ∧ orRes.toFinset = df1.toFinset ∪ df2.toFinset
      ∧ orRes.Nodup := by
  have hand : pyLower "and" = "and" := by decide
  have hor : pyLower "or" = "or" := by decide
  refine ⟨mergeInnerAllColumns df1 df2, drop_duplicates (df1 ++ df2), ?_, ?_, ?_, ?_, ?_⟩
  · unfold apply_operation_to_dataframes
    rw [hand, if_pos rfl]
  · unfold apply_operation_to_dataframes
    rw [hor, if_neg (by decide), if_pos rfl]
  · ext a
    simp [mem_mergeInnerAllColumns]
  · ext a
    unfold drop_duplicates
    simp [mem_dropDupAux]
  · exact nodup_dropDupAux _ []

/-! ## Cohort engine, leaf evaluation and state: core/data_manager.py -/

/-- A dataframe: the ordered columns (name and pandas dtype label) and the
rows.  Every row of a well-formed frame carries a cell for every column. -/
structure DataFrame where
  cols : List (String × String)
  rows : List Row
  deriving DecidableEq, Repr

/-- Modelled from the spec: `Query.is_complex` is used by
core/data_manager.py and by tests/practical_test.py but is absent from
src/root/core/query.py (version skew).  Spec sections 4.1 and 9: a query
dict is recognized as compound iff it contains a criteria list. -/
def Query.is_complex : Query → Bool
  | .mk _ _ _ criteria => criteria.isSome

/-- Modelled from the spec: `get_query1`, the first child of a compound
query (the binary destructuring variant the spec describes in section 9). -/
def Query.get_query1 : Query → Option Query
  | .mk _ _ _ criteria => (criteria.getD [])[0]?

/-- Modelled from the spec: `get_query2`, the second child. -/
def Query.get_query2 : Query → Option Query
  | .mk _ _ _ criteria => (criteria.getD [])[1]?

/-- core/query.py lines 43-46: `get_operation` returns the operation
entry, defaulting to the empty string. -/
def Query.get_operation : Query → String
  | .mk _ operation _ _ => operation.getD ""

/-- Modelled from the spec: `get_field` of a leaf query. -/
def Query.get_field : Query → Option String
  | .mk field _ _ _ => field

/-- Modelled from the spec: `get_value` of a leaf query; a missing value
entry reads as Python None. -/
def Query.get_value : Query → PyVal
  | .mk _ _ value _ => value.getD (PyVal.scalar PyScalar.none)

/-- The cell of a row in a column; a missing column reads as NaN (rows of
a well-formed frame always carry the column). -/
def cellAt (r : Row) (field : String) : PyScalar :=
  (lookupKey field r).getD PyScalar.none

/-- pandas elementwise order comparison of two cells: a missing value
compares False on either side, values of one kind compare within the
kind, and a cross-kind order comparison raises TypeError, embedded as
`Option.none`. -/
def cellLt : PyScalar → PyScalar → Option Bool
  | PyScalar.none, _ => some false
  | _, PyScalar.none => some false
  | PyScalar.int a, PyScalar.int b => some (decide (a < b))
  | PyScalar.str a, PyScalar.str b => some (decide (a < b))
  | PyScalar.boolean a, PyScalar.boolean b => some (!a && b)
  | _, _ => Option.none

def cellLe : PyScalar → PyScalar → Option Bool
  | PyScalar.none, _ => some false
  | _, PyScalar.none => some false
  | PyScalar.int a, PyScalar.int b => some (decide (a ≤ b))
  | PyScalar.str a, PyScalar.str b => some (decide (a ≤ b))
  | PyScalar.boolean a, PyScalar.boolean b => some (!a || b)
  | _, _ => Option.none

/-- pandas elementwise equality: a missing value equals nothing (NaN ==
x is False even for x = NaN); otherwise equality within the kind, False
across kinds (Python == does not raise). -/
def cellEq : PyScalar → PyScalar → Bool
  | PyScalar.none, _ => false
  | _, PyScalar.none => false
  | a, b => decide (a = b)

/-- str(cell) after astype(str): pandas renders a missing value as the
string nan. -/
def strOfScalar : PyScalar → String
  | PyScalar.none => "nan"
  | PyScalar.int n => toString n
  | PyScalar.str s => s
  | PyScalar.boolean b => if b then "True" else "False"

/-- Substring containment on character lists (needle, haystack). -/
def containsSub (needle : List Char) : List Char → Bool
  | [] => decide (needle = [])
  | c :: rest => needle.isPrefixOf (c :: rest) || containsSub needle rest

/-- Filter with a fallible predicate: the first raising comparison aborts
the whole operation, like an elementwise pandas comparison raising. -/
def filterRowsM (p : Row → Option Bool) : List Row → Option (List Row)
  | [] => some []
  | r :: rest => do
    let b ← p r
    let rs ← filterRowsM p rest
    pure (if b then r :: rs else rs)

/-- core/data_manager.py lines 190-268: `_apply_basic_query_to_dataframe`.
Rejects complex queries, requires the field to be a dataframe column, and
dispatches on the lowercased operation; comparisons against a list value
and unknown operations raise (Except.error, the RuntimeError re-raise of
the source). -/
def apply_basic_query_to_dataframe (query : Query) (df : DataFrame) :
    Except String DataFrame :=
  if query.is_complex then Except.error "Expected simple query, got complex query"
  else
    match query.get_field with
    | Option.none => Except.error "Field not found in DataFrame"
    | some field =>
      if field ∉ df.cols.map Prod.fst then Except.error "Field not found in DataFrame"
      else
        let operation := pyLower query.get_operation
        let value := query.get_value
        if operation = "equals" then
          match value with
          | PyVal.scalar v => Except.ok ⟨df.cols, df.rows.filter (fun r => cellEq (cellAt r field) v)⟩
          | PyVal.list _ => Except.error "Lengths must match to compare"
        else if operation = "not_equals" then
          match value with
          | PyVal.scalar v => Except.ok ⟨df.cols, df.rows.filter (fun r => !cellEq (cellAt r field) v)⟩
          | PyVal.list _ => Except.error "Lengths must match to compare"
        else if operation = "greater_than" then
          match value with
          | PyVal.scalar v =>
            match filterRowsM (fun r => cellLt v (cellAt r field)) df.rows with
            | some rows => Except.ok ⟨df.cols, rows⟩
            | Option.none => Except.error "TypeError"
          | PyVal.list _ => Except.error "TypeError"
        else if operation = "less_than" then
          match value with
          | PyVal.scalar v =>
            match filterRowsM (fun r => cellLt (cellAt r field) v) df.rows with
            | some rows => Except.ok ⟨df.cols, rows⟩
            | Option.none => Except.error "TypeError"
          | PyVal.list _ => Except.error "TypeError"
        else if operation = "greater_equal" then
          match value with
          | PyVal.scalar v =>
            match filterRowsM (fun r => cellLe v (cellAt r field)) df.rows with
            | some rows => Except.ok ⟨df.cols, rows⟩
            | Option.none => Except.error "TypeError"
          | PyVal.list _ => Except.error "TypeError"
        else if operation = "less_equal" then
          match value with
          | PyVal.scalar v =>
            match filterRowsM (fun r => cellLe (cellAt r field) v) df.rows with
            | some rows => Except.ok ⟨df.cols, rows⟩
            | Option.none => Except.error "TypeError"
          | PyVal.list _ => Except.error "TypeError"
        else if operation = "contains" then
          match value with
          | PyVal.scalar (PyScalar.str needle) =>
            Except.ok ⟨df.cols, df.rows.filter
              (fun r => containsSub needle.data (strOfScalar (cellAt r field)).data)⟩
          | _ => Except.error "contains operation requires string value"
        else if operation = "in" then
          match value with
          | PyVal.list vs =>
            Except.ok ⟨df.cols, df.rows.filter (fun r => vs.any (fun v => cellEq (cellAt r field) v))⟩
          | _ => Except.error "in operation requires list or tuple value"
        else if operation = "between" then
          match value with
          | PyVal.list [lo, hi] =>
            match filterRowsM (fun r => do
                let a ← cellLe lo (cellAt r field)
                let b ← cellLe (cellAt r field) hi
                pure (a && b)) df.rows with
            | some rows => Except.ok ⟨df.cols, rows⟩
            | Option.none => Except.error "TypeError"
          | _ => Except.error "between operation requires list/tuple of 2 values"
        else if operation = "is_null" then
          Except.ok ⟨df.cols, df.rows.filter (fun r => decide (cellAt r field = PyScalar.none))⟩
        else if operation = "is_not_null" then
          Except.ok ⟨df.cols, df.rows.filter (fun r => decide (cellAt r field ≠ PyScalar.none))⟩
        else Except.error "Unsupported operation"

/-- core/data_manager.py lines 155-188: `_apply_query_to_dataframe`.  The
method returns the filtered frame, or the Python bool False when anything
inside raises (the except handler at line 186), embedded as Option.none.
A compound query destructures into get_query1 / get_query2 and combines
the two recursive results; a missing child or a failing child ends in the
same return-False handler. -/
def apply_query_to_dataframe : Query → DataFrame → Option DataFrame
  | Query.mk f op v Option.none, df =>
      (apply_basic_query_to_dataframe (Query.mk f op v Option.none) df).toOption
  | Query.mk f op v (some cs), df =>
      match cs with
      | q1 :: q2 :: _ =>
        match apply_query_to_dataframe q1 df, apply_query_to_dataframe q2 df with
        | some left_df, some right_df =>
          match apply_operation_to_dataframes left_df.rows right_df.rows
              (pyLower ((Query.mk f op v (some cs)).get_operation)) with
          | Except.ok rows => some ⟨df.cols, rows⟩
          | Except.error _ => Option.none
        | _, _ => Option.none
      | _ => Option.none

/-- Per-column schema information, projected to the fields the rest of
the core reads (`_create_schema` additionally computes numeric summaries,
value distributions and a _database_info entry, none of which any of the
validators consult). -/
structure ColumnInfo where
  dtype : String
  unique_values : Nat
  missing_values : Nat
  total_rows : Nat
  deriving DecidableEq, Repr

/-- core/data_manager.py lines 510-571: `_create_schema`, the per-column
loop: dtype label, distinct non-missing count (nunique drops NaN),
missing count, row count. -/
def create_schema (df : DataFrame) : List (String × ColumnInfo) :=
  df.cols.map (fun c =>
    (c.1,
      { dtype := c.2
      , unique_values :=
          (((df.rows.map (fun r => cellAt r c.1)).filter
              (fun x => decide (x ≠ PyScalar.none))).dedup).length
      , missing_values :=
          ((df.rows.map (fun r => cellAt r c.1)).filter
              (fun x => decide (x = PyScalar.none))).length
      , total_rows := df.rows.length }))

/-- The dtype projection of a stored schema, which is all
`Query.validate` reads of it. -/
def schemaDtypes (s : List (String × ColumnInfo)) : Schema :=
  s.map (fun p => (p.1, p.2.dtype))

/-- State of core/data_manager.py `DataManager` after construction:
the loaded full dataset, the current cohort, and the two schema
snapshots. -/
structure DataManager where
  full_dataset : DataFrame
  current_cohort : DataFrame
  full_schema : List (String × ColumnInfo)
  current_schema : List (String × ColumnInfo)
  deriving DecidableEq, Repr

/-- core/data_manager.py lines 135-153: `apply_query_on_current_cohort`.
On success the cohort is replaced and the current schema recomputed.
When `_apply_query_to_dataframe` fails it returns the bool False, and the
debug interpolation at line 150 (result.shape if result is not None)
evaluates False.shape, raising AttributeError BEFORE the assignment to
self._current_cohort — so the method exits with an exception and neither
the cohort nor the schema has been touched.  The boolean component is
true when the method returns normally, false when it raises. -/
def apply_query_on_current_cohort (dm : DataManager) (q : Query) :
    Bool × DataManager :=
  match apply_query_to_dataframe q dm.current_cohort with
  | some result =>
      (true, { dm with current_cohort := result
                     , current_schema := create_schema result })
  | Option.none => (false, dm)

/-- Claim C10, confirmed: whenever apply_query_on_current_cohort raises,
the DataManager state (current cohort and current schema included) is
exactly what it was before the call.  The raise happens at the debug
logging of the failed result, before any assignment. -/
theorem c10_theorem (dm : DataManager) (q : Query)
    (h : (apply_query_on_current_cohort dm q).1 = false) :
    (apply_query_on_current_cohort dm q).2 = dm := by
  unfold apply_query_on_current_cohort at h ⊢
  cases hr : apply_query_to_dataframe q dm.current_cohort with
  | none => rfl
  | some result =>
    rw [hr] at h
    simp at h

/-- Witness for c10_theorem: a one-column cohort and a leaf query with the
unsupported operation foo; evaluation fails, the call raises, and the
state is returned unchanged. -/
theorem c10_theorem_witness :
    (apply_query_on_current_cohort
        ⟨⟨[("A", "int64")], [[("A", PyScalar.int 1)]]⟩,
         ⟨[("A", "int64")], [[("A", PyScalar.int 1)]]⟩,
         create_schema ⟨[("A", "int64")], [[("A", PyScalar.int 1)]]⟩,
         create_schema ⟨[("A", "int64")], [[("A", PyScalar.int 1)]]⟩⟩
        (Query.mk (some "A") (some "foo") (some (PyVal.scalar (PyScalar.int 0)))
          Option.none)).2
      = ⟨⟨[("A", "int64")], [[("A", PyScalar.int 1)]]⟩,
         ⟨[("A", "int64")], [[("A", PyScalar.int 1)]]⟩,
         create_schema ⟨[("A", "int64")], [[("A", PyScalar.int 1)]]⟩,
         create_schema ⟨[("A", "int64")], [[("A", PyScalar.int 1)]]⟩⟩ :=
  c10_theorem _ _ (by simp [apply_query_on_current_cohort, apply_query_to_dataframe,
    apply_basic_query_to_dataframe, Query.is_complex, Query.get_field,
    Query.get_operation, Query.get_value, pyLower, Except.toOption])

/-! ## Intention model and execution dispatcher:
core/intention.py, core/visualizer_request.py, core/intention_executor.py -/

/-- core/intention.py lines 10-14: the IntentionType enum.  Note that it
has exactly these four members; in particular there is no NON_FILTER. -/
inductive IntentionType where
  | COHORT_FILTER
  | VISUALIZATION
  | HELP
  | UNKNOWN
  deriving DecidableEq, Repr

/-- core/intention.py lines 16-18: the FilterTarget enum. -/
inductive FilterTarget where
  | FULL_DATASET
  | CURRENT_COHORT
  deriving DecidableEq, Repr

/-- core/visualizer_request.py lines 9-16: ChartType. -/
inductive ChartType where
  | bar
  | line
  | pie
  | histogram
  | scatter
  | box
  deriving DecidableEq, Repr

/-- core/visualizer_request.py lines 18-29: the VisualizerRequest
dataclass. -/
structure VisualizerRequest where
  chart_type : ChartType
  title : String
  x_column : Option String := Option.none
  y_column : Option String := Option.none
  category_column : Option String := Option.none
  aggregation : Option String := Option.none
  deriving DecidableEq, Repr

/-- Python truthiness of an optional string column field: None and the
empty string are falsy. -/
def optStrTruthy : Option String → Bool
  | Option.none => false
  | some s => decide (s ≠ "")

/-- core/visualizer_request.py lines 110-147: `VisualizerRequest.validate`
against the available column names. -/
def VisualizerRequest.validate (req : VisualizerRequest)
    (available_columns : List String) : Bool :=
  if optStrTruthy req.x_column ∧ req.x_column.getD "" ∉ available_columns then false
  else if optStrTruthy req.y_column ∧ req.y_column.getD "" ∉ available_columns then false
  else if optStrTruthy req.category_column
      ∧ req.category_column.getD "" ∉ available_columns then false
  else if req.chart_type = ChartType.scatter
      ∧ ¬ (optStrTruthy req.x_column ∧ optStrTruthy req.y_column) then false
  else if req.chart_type = ChartType.pie ∧ ¬ optStrTruthy req.x_column then false
  else true

/-- core/intention.py lines 20-32: the Intention object. -/
structure Intention where
  intention_type : IntentionType
  description : String
  query : Option Query := Option.none
  filter_target : Option FilterTarget := Option.none
  visualizer_request : Option VisualizerRequest := Option.none

/-- core/intention.py lines 36-86: `Intention.validate` called with a
data manager (as the executor always does), embedded as the accumulated
validation_errors list.  The COHORT_FILTER branch validates the query
against the schema matching the target; the VISUALIZATION branch
validates the request against the current schema columns (appending the
pseudo-column count when y_column is count); HELP and UNKNOWN only need a
non-empty description. -/
def Intention.validationErrorsWith (i : Intention) (dm : DataManager) :
    List String :=
  (if i.description = "" then ["Description is required"] else [])
  ++ (match i.intention_type with
      | IntentionType.COHORT_FILTER =>
        (if i.query.isNone then ["Query is required for COHORT_FILTER intention"] else [])
        ++ (if i.filter_target.isNone then ["Filter target is required"] else [])
        ++ (match i.query, i.filter_target with
            | some q, some t =>
              let schema := schemaDtypes
                (match t with
                 | FilterTarget.FULL_DATASET => dm.full_schema
                 | FilterTarget.CURRENT_COHORT => dm.current_schema)
              if schema = [] then ["Could not get schema from data manager"]
              else if ¬ q.validate schema then ["Invalid query for the given schema"]
              else []
            | _, _ => [])
      | IntentionType.VISUALIZATION =>
        (match i.visualizer_request with
         | Option.none => ["VisualizerRequest is required for VISUALIZATION intention"]
         | some req =>
           if dm.current_schema = [] then ["Could not get schema from data manager"]
           else
             let available_columns := (dm.current_schema.map Prod.fst)
               ++ (if req.y_column = some "count" then ["count"] else [])
             if ¬ req.validate available_columns
             then ["Invalid visualizer request for current schema"]
             else [])
      | _ => [])

/-- The boolean result of `Intention.validate`. -/
def Intention.validateWith (i : Intention) (dm : DataManager) : Bool :=
  decide (i.validationErrorsWith dm = [])

/-- The structured result dictionary the executor returns. -/
structure ExecResult where
  success : Bool
  rtype : Option String := Option.none
  message : Option String := Option.none
  error : Option String := Option.none
  errors : List String := []
  deriving Repr

/-- core/intention_executor.py lines 18-86: `IntentionExecutor.execute`.
After successful validation the try block begins with the comparison
against IntentionType.NON_FILTER at line 37; the IntentionType enum of
core/intention.py has no member NON_FILTER, so that attribute lookup
raises AttributeError (whose str() is the member name), the handler at
lines 81-86 converts it into a failure result, and the dispatch on
COHORT_FILTER / VISUALIZATION / HELP below line 37 is unreachable. -/
def IntentionExecutor.execute (dm : DataManager) (i : Intention) :
    ExecResult × DataManager :=
  if ¬ i.validateWith dm then
    ({ success := false, errors := i.validationErrorsWith dm }, dm)
  else
    ({ success := false, error := some "NON_FILTER" }, dm)

/-- Claim C7 fails on the code (code bug): a HELP intention with the
description of the repo's own test_execute_help passes validation, yet
execute returns success False with the NON_FILTER attribute error and no
message, instead of the claimed success result carrying the description;
the state is indeed unchanged.  The same holds for an UNKNOWN intention.
(tests/test_intention_executor.py lines 93-106 assert success True and
message Help message, so the code contradicts its own tests.) -/
theorem c7_failing :
    (Intention.validationErrorsWith
        ⟨IntentionType.HELP, "Help message", Option.none, Option.none, Option.none⟩
        ⟨⟨[("A", "int64")], [[("A", PyScalar.int 1)]]⟩,
         ⟨[("A", "int64")], [[("A", PyScalar.int 1)]]⟩,
         create_schema ⟨[("A", "int64")], [[("A", PyScalar.int 1)]]⟩,
         create_schema ⟨[("A", "int64")], [[("A", PyScalar.int 1)]]⟩⟩) = []
    ∧ (IntentionExecutor.execute
        ⟨⟨[("A", "int64")], [[("A", PyScalar.int 1)]]⟩,
         ⟨[("A", "int64")], [[("A", PyScalar.int 1)]]⟩,
         create_schema ⟨[("A", "int64")], [[("A", PyScalar.int 1)]]⟩,
         create_schema ⟨[("A", "int64")], [[("A", PyScalar.int 1)]]⟩⟩
        ⟨IntentionType.HELP, "Help message", Option.none, Option.none, Option.none⟩).1.success
        = false
    ∧ (IntentionExecutor.execute
        ⟨⟨[("A", "int64")], [[("A", PyScalar.int 1)]]⟩,
         ⟨[("A", "int64")], [[("A", PyScalar.int 1)]]⟩,
         create_schema ⟨[("A", "int64")], [[("A", PyScalar.int 1)]]⟩,
         create_schema ⟨[("A", "int64")], [[("A", PyScalar.int 1)]]⟩⟩
        ⟨IntentionType.HELP, "Help message", Option.none, Option.none, Option.none⟩).1.error
        = some "NON_FILTER"
    ∧ (IntentionExecutor.execute
        ⟨⟨[("A", "int64")], [[("A", PyScalar.int 1)]]⟩,
         ⟨[("A", "int64")], [[("A", PyScalar.int 1)]]⟩,
         create_schema ⟨[("A", "int64")], [[("A", PyScalar.int 1)]]⟩,
         create_schema ⟨[("A", "int64")], [[("A", PyScalar.int 1)]]⟩⟩
        ⟨IntentionType.HELP, "Help message", Option.none, Option.none, Option.none⟩).1.message
        = Option.none
    ∧ (IntentionExecutor.execute
        ⟨⟨[("A", "int64")], [[("A", PyScalar.int 1)]]⟩,
         ⟨[("A", "int64")], [[("A", PyScalar.int 1)]]⟩,
         create_schema ⟨[("A", "int64")], [[("A", PyScalar.int 1)]]⟩,
         create_schema ⟨[("A", "int64")], [[("A", PyScalar.int 1)]]⟩⟩
        ⟨IntentionType.HELP, "Help message", Option.none, Option.none, Option.none⟩).2
        = ⟨⟨[("A", "int64")], [[("A", PyScalar.int 1)]]⟩,
         ⟨[("A", "int64")], [[("A", PyScalar.int 1)]]⟩,
         create_schema ⟨[("A", "int64")], [[("A", PyScalar.int 1)]]⟩,
         create_schema ⟨[("A", "int64")], [[("A", PyScalar.int 1)]]⟩⟩
    ∧ (IntentionExecutor.execute
        ⟨⟨[("A", "int64")], [[("A", PyScalar.int 1)]]⟩,
         ⟨[("A", "int64")], [[("A", PyScalar.int 1)]]⟩,
         create_schema ⟨[("A", "int64")], [[("A", PyScalar.int 1)]]⟩,
         create_schema ⟨[("A", "int64")], [[("A", PyScalar.int 1)]]⟩⟩
        ⟨IntentionType.UNKNOWN, "what", Option.none, Option.none, Option.none⟩).1.success
        = false :=
  ⟨rfl, rfl, rfl, rfl, rfl, rfl⟩

/-! ## Action batches: core/action_manager.py -/

/-- A parsed JSON value as json.loads hands it to the decode loop. -/
inductive Json where
  | str (s : String)
  | num (n : Int)
  | jbool (b : Bool)
  | null
  | arr (elems : List Json)
  | obj (entries : List (String × Json))

/-- Python truthiness of a JSON value (if not action_type). -/
def Json.truthy : Json → Bool
  | Json.str s => decide (s ≠ "")
  | Json.num n => decide (n ≠ 0)
  | Json.jbool b => b
  | Json.null => false
  | Json.arr l => !l.isEmpty
  | Json.obj l => !l.isEmpty

def Json.isObj : Json → Bool
  | Json.obj _ => true
  | _ => false

/-- parameters.get(name) followed by isinstance(..., str). -/
def paramIsStr (params : List (String × Json)) (name : String) : Bool :=
  match lookupKey name params with
  | some (Json.str _) => true
  | _ => false

/-- parameters.get(name) followed by isinstance(..., dict). -/
def paramIsDict (params : List (String × Json)) (name : String) : Bool :=
  match lookupKey name params with
  | some (Json.obj _) => true
  | _ => false

/-- core/action_manager.py lines 184-220: `_validate_action_parameters`.
A non-string action type equals none of the literals and falls through to
the unknown-type rejection; note that show_statistics, though a member of
the ActionType enum, is not handled and is therefore rejected here. -/
def validate_action_parameters (action_type : Json)
    (params : List (String × Json)) : Bool :=
  match action_type with
  | Json.str t =>
    if t = "print_message" then paramIsStr params "message"
    else if t = "name_cohort" then paramIsStr params "name"
    else if t = "save_cohort" then paramIsStr params "name"
    else if t = "create_visualization" then paramIsDict params "request"
    else if t = "suggestion" then paramIsStr params "message" && paramIsStr params "prompt"
    else false
  | _ => false

/-- A decoded action. -/
structure Action where
  type : String
  parameters : List (String × Json)

/-- The six string values of the ActionType enum (lines 17-23). -/
def actionTypeValues : List String :=
  ["print_message", "name_cohort", "save_cohort", "create_visualization",
   "show_statistics", "suggestion"]

/-- core/action_manager.py lines 138-182: `_validate_and_add_action` on a
dict element (a non-dict element never reaches this method, see the
decode loop below).  Returns the action to append, or Option.none when
the method returns False: missing or falsy type, parameters present but
not a dict (a missing parameters key defaults to the empty dict, which
passes), parameter validation failure, or ActionType(action_type) raising
ValueError. -/
def validate_and_add_action (entries : List (String × Json)) : Option Action :=
  match lookupKey "type" entries with
  | Option.none => Option.none
  | some t =>
    if ¬ t.truthy then Option.none
    else
      match (lookupKey "parameters" entries).getD (Json.obj []) with
      | Json.obj params =>
        if ¬ validate_action_parameters t params then Option.none
        else
          match t with
          | Json.str ts =>
            if ts ∈ actionTypeValues then some ⟨ts, params⟩ else Option.none
          | _ => Option.none
      | _ => Option.none

/-- core/action_manager.py lines 119-127: the decode loop over the parsed
actions_data, starting from the cleared actions list.  A dict element
that fails validation clears the accumulated actions and returns False.
A non-dict element raises AttributeError inside the f-string of the
logger.debug call at line 120 (action_data.get evaluated on a non-dict),
which the outer except handler turns into a False return WITHOUT
clearing: the actions appended by earlier iterations survive. -/
def decodeActionsLoop : List Json → List Action → Bool × List Action
  | [], acc => (true, acc)
  | Json.obj entries :: rest, acc =>
    (match validate_and_add_action entries with
     | some a => decodeActionsLoop rest (acc ++ [a])
     | Option.none => (false, []))
  | _ :: _, acc => (false, acc)

/-- core/action_manager.py lines 79-135: `decode_llm_response` from the
parsed JSON onward (locating the brackets and json.loads are the Python
standard library, treated as the parsing boundary).  prior is the
pending-actions list before the call; a non-array payload returns False
without touching it (the return at line 110 precedes the clear at line
115), an array is decoded by the loop above after the clear. -/
def decode_llm_response (prior : List Action) (actions_data : Json) :
    Bool × List Action :=
  match actions_data with
  | Json.arr elems => decodeActionsLoop elems []
  | _ => (false, prior)

/-- Claim C8 as stated is false at this input: the array holds a valid
print_message, then a bare string, then a save_cohort with empty
parameters (a malformed action of exactly the claimed kind).  The call
returns false, but the pending list retains the decoded print_message:
the bare string raises at the loop logging statement and the except
handler returns without clearing. -/
theorem c8_counterexample :
    (decode_llm_response []
        (Json.arr
          [ Json.obj [("type", Json.str "print_message"),
                      ("parameters", Json.obj [("message", Json.str "ok")])]
          , Json.str "bad"
          , Json.obj [("type", Json.str "save_cohort"),
                      ("parameters", Json.obj [])] ])).1 = false
    ∧ (decode_llm_response []
        (Json.arr
          [ Json.obj [("type", Json.str "print_message"),
                      ("parameters", Json.obj [("message", Json.str "ok")])]
          , Json.str "bad"
          , Json.obj [("type", Json.str "save_cohort"),
                      ("parameters", Json.obj [])] ])).2 ≠ []
    ∧ validate_and_add_action
        [("type", Json.str "save_cohort"), ("parameters", Json.obj [])]
        = Option.none := by
  refine ⟨rfl, ?_, rfl⟩
  show ([⟨"print_message", [("message", Json.str "ok")]⟩] : List Action) ≠ []
  exact List.cons_ne_nil _ _

theorem decodeActionsLoop_rejects {elems : List Json} :
    ∀ acc, (∀ e ∈ elems, e.isObj = true) →
      (∃ e ∈ elems, ∃ entries, e = Json.obj entries
          ∧ validate_and_add_action entries = Option.none) →
      decodeActionsLoop elems acc = (false, []) := by
  induction elems with
  | nil =>
    intro acc _ hbad
    obtain ⟨e, hmem, _⟩ := hbad
    exact absurd hmem (List.not_mem_nil e)
  | cons e rest ih =>
    intro acc hobj hbad
    obtain ⟨entries, he⟩ : ∃ entries, e = Json.obj entries := by
      have := hobj e (List.mem_cons_self e rest)
      cases e <;> simp [Json.isObj] at this
      exact ⟨_, rfl⟩
    subst he
    rw [decodeActionsLoop]
    cases hv : validate_and_add_action entries with
    | none => rfl
    | some a =>
      simp only []
      apply ih
      · exact fun x hx => hobj x (List.mem_cons_of_mem _ hx)
      · obtain ⟨e2, hmem, entries2, he2, hval2⟩ := hbad
        rcases List.mem_cons.mp hmem with hm | hm
        · subst hm
          have heq : entries = entries2 := by injection he2
          rw [heq, hval2] at hv
          exact Option.noConfusion hv
        · exact ⟨e2, hm, entries2, he2, hval2⟩

/-- Claim C8, amended: when every element of the extracted array is a
JSON object, a batch holding at least one malformed action makes
decode_llm_response return false with an empty pending list (no prefix of
valid actions retained); a non-object array element instead aborts the
batch with a false return while retaining the actions already appended,
as the counterexample shows. -/
theorem c8_amended (prior : List Action) (elems : List Json)
    (hobj : ∀ e ∈ elems, e.isObj = true)
    (hbad : ∃ e ∈ elems, ∃ entries, e = Json.obj entries
        ∧ validate_and_add_action entries = Option.none) :
    decode_llm_response prior (Json.arr elems) = (false, []) := by
  unfold decode_llm_response
  exact decodeActionsLoop_rejects [] hobj hbad

/-- Witness for c8_amended: the batch of the spec example, a valid
print_message followed by a save_cohort without a name. -/
theorem c8_amended_witness :
    decode_llm_response []
        (Json.arr
          [ Json.obj [("type", Json.str "print_message"),
                      ("parameters", Json.obj [("message", Json.str "ok")])]
          , Json.obj [("type", Json.str "save_cohort"),
                      ("parameters", Json.obj [])] ])
      = (false, []) :=
  c8_amended []
    [ Json.obj [("type", Json.str "print_message"),
                ("parameters", Json.obj [("message", Json.str "ok")])]
    , Json.obj [("type", Json.str "save_cohort"),
                ("parameters", Json.obj [])] ]
    (by intro e he
        rcases List.mem_cons.mp he with h | h
        · subst h; rfl
        · rcases List.mem_cons.mp h with h | h
          · subst h; rfl
          · exact absurd h (List.not_mem_nil e))
    ⟨Json.obj [("type", Json.str "save_cohort"), ("parameters", Json.obj [])],
      by simp,
      [("type", Json.str "save_cohort"), ("parameters", Json.obj [])], rfl, rfl⟩

/-! ## Preparser fast path: core/preparser.py lines 166-259 -/

/-- Case-insensitive literal prefix match (ASCII case folding; the
patterns are compiled with re.IGNORECASE); returns the remainder. -/
def stripPrefixCI : List Char → List Char → Option (List Char)
  | [], cs => some cs
  | _ :: _, [] => Option.none
  | p :: ps, c :: cs =>
    if c.toLower = p.toLower then stripPrefixCI ps cs else Option.none

/-- A regex alternation of literals, tried left to right. -/
def firstAltCI (alts : List String) (cs : List Char) : Option (List Char) :=
  match alts with
  | [] => Option.none
  | a :: rest =>
    match stripPrefixCI a.data cs with
    | some r => some r
    | Option.none => firstAltCI rest cs

def skipSpaces (cs : List Char) : List Char :=
  cs.dropWhile (fun c => c.isWhitespace)

def digitsToNat (ds : List Char) : Nat :=
  ds.foldl (fun acc c => acc * 10 + (c.toNat - 48)) 0

/-- A greedy digit group, at least one digit. -/
def takeDigits (cs : List Char) : Option Nat :=
  match cs.takeWhile Char.isDigit with
  | [] => Option.none
  | ds => some (digitsToNat ds)

/-- The tail of the age patterns, with the backtracking the optional verb
group needs when the digits do not follow it. -/
def matchAgeTail (cs : List Char) : Option Nat :=
  match firstAltCI ["que", "a", "de"] cs with
  | some rest =>
    (match takeDigits (skipSpaces rest) with
     | some n => some n
     | Option.none => takeDigits (skipSpaces cs))
  | Option.none => takeDigits (skipSpaces cs)

/-- The head alternation of the age patterns, with the optional plural s
taken greedily. -/
def matchAgeHead (cs : List Char) : Option (List Char) :=
  match stripPrefixCI "edad".data cs with
  | some r => some r
  | Option.none =>
    match stripPrefixCI "año".data cs with
    | some r =>
      (match stripPrefixCI "s".data r with
       | some r2 => some r2
       | Option.none => some r)
    | Option.none => Option.none

/-- One anchored attempt of an age pattern with the given comparison
alternatives (mayor/mas/superior or menor/menos/inferior families). -/
def matchAgeAt (mids : List String) (cs : List Char) : Option Nat :=
  match matchAgeHead cs with
  | Option.none => Option.none
  | some r1 =>
    match firstAltCI mids (skipSpaces r1) with
    | Option.none => Option.none
    | some r2 => matchAgeTail (skipSpaces r2)

/-- re.search: try the anchored match at every start position, leftmost
first. -/
def searchFrom (f : List Char → Option α) : List Char → Option α
  | [] => f []
  | c :: rest =>
    match f (c :: rest) with
    | some x => some x
    | Option.none => searchFrom f rest

/-- The quote characters of the condition pattern (double and single
quote). -/
def isQuoteChar (c : Char) : Bool := c.toNat = 34 || c.toNat = 39

/-- The capture group of the condition pattern after the optional verb:
optional whitespace, an optional opening quote, then one or more
non-quote characters; the captured text is stripped. -/
def matchCondCapture (cs : List Char) : Option String :=
  let r := skipSpaces cs
  let r2 := match r with
            | c :: rest => if isQuoteChar c then rest else r
            | [] => r
  match r2.takeWhile (fun c => !isQuoteChar c) with
  | [] => Option.none
  | cap => some (String.mk cap).trim

/-- One anchored attempt of the condition pattern, backtracking out of the
optional es / igual a group when the capture after it is empty. -/
def matchCondAt (cs : List Char) : Option String :=
  match firstAltCI ["condición", "condicion", "enfermedad"] cs with
  | Option.none => Option.none
  | some r =>
    match r with
    | c :: rest =>
      if c.isWhitespace then
        let r1 := skipSpaces rest
        match firstAltCI ["es", "igual a"] r1 with
        | some r2 =>
          (match matchCondCapture r2 with
           | some str => some str
           | Option.none => matchCondCapture r1)
        | Option.none => matchCondCapture r1
      else Option.none
    | [] => Option.none

/-- core/preparser.py lines 221-259: `_try_regex_match` wrapped together
with the Query construction of preparse_user_input line 207: the three
patterns are tried in order and yield the leaf query dict of the source. -/
def try_regex_match (q : String) : Option Query :=
  match searchFrom (matchAgeAt ["mayor", "más", "superior", ">"]) q.data with
  | some age => some (Query.mk (some "Edad") (some "greater_than")
      (some (PyVal.scalar (PyScalar.int age))) Option.none)
  | Option.none =>
    match searchFrom (matchAgeAt ["menor", "menos", "inferior", "<"]) q.data with
    | some age => some (Query.mk (some "Edad") (some "less_than")
        (some (PyVal.scalar (PyScalar.int age))) Option.none)
    | Option.none =>
      match searchFrom matchCondAt q.data with
      | some cond => some (Query.mk (some "Descripcion") (some "equals")
          (some (PyVal.scalar (PyScalar.str cond))) Option.none)
      | Option.none => Option.none

/-- core/preparser.py lines 28-46: `_check_cache`.  A hit moves the entry
to the most-recently-used end and bumps its usage counter. -/
def Preparser.check_cache (st : Preparser V) (input : String) :
    Option V × Preparser V :=
  match lookupKey input st.cache with
  | some v =>
    (some v,
      { st with cache := eraseKey input st.cache ++ [(input, v)]
              , cache_usage := setKey input
                  ((lookupKey input st.cache_usage).getD 0 + 1) st.cache_usage })
  | Option.none => (Option.none, st)

inductive PyError where
  | typeError
  deriving DecidableEq, Repr

/-- The two shapes preparse_user_input returns: a resolved intention with
needs_llm False, or the raw string with needs_llm True. -/
inductive PreparseOut (V : Type) where
  | resolved (intention : V)
  | needsLLM (raw : String)

/-- Keyword parameters of Intention.__init__ (core/intention.py lines
21-26) and the ones without defaults. -/
def intentionInitParams : List String :=
  ["intention_type", "description", "query", "filter_target", "visualizer_request"]

def intentionInitRequired : List String := ["intention_type", "description"]

/-- The keyword argument names the construction site in core/preparser.py
lines 209-213 actually passes. -/
def preparserCallKeywords : List String := ["type", "query", "target"]

/-- Python keyword binding: a call succeeds iff every supplied keyword
names a parameter and every parameter without a default receives an
argument; otherwise the call raises TypeError. -/
def pythonKwBindOk (params required used : List String) : Bool :=
  used.all (fun u => u ∈ params) && required.all (fun r => r ∈ used)

/-- core/preparser.py lines 183-219: `preparse_user_input`.  Cache hit
first (an Intention object is always truthy); then the regex fallback,
whose match builds a Query and then calls
Intention(type=..., query=query, target=FilterTarget.FULL_DATASET).
The keywords type and target are not parameters of Intention.__init__
and description receives no argument, so that call raises TypeError,
propagating out of preparse_user_input before update_cache runs; the
guarded branch shows the flow the call site intends. -/
def preparse_user_input (st : Preparser Intention) (user_input : String) :
    Except PyError (PreparseOut Intention) × Preparser Intention :=
  match st.check_cache user_input with
  | (some cached, st') => (Except.ok (PreparseOut.resolved cached), st')
  | (Option.none, _) =>
    match try_regex_match user_input with
    | some query =>
      if pythonKwBindOk intentionInitParams intentionInitRequired preparserCallKeywords
      then
        let intention : Intention :=
          ⟨IntentionType.COHORT_FILTER, "", some query,
            some FilterTarget.FULL_DATASET, Option.none⟩
        (Except.ok (PreparseOut.resolved intention),
          st.update_cache user_input intention)
      else (Except.error PyError.typeError, st)
    | Option.none => (Except.ok (PreparseOut.needsLLM user_input), st)

/-- Claim C6 fails on the code (code bug): the uncached input
edad mayor que 40 matches the age-greater pattern and yields the claimed
leaf query dict, but the Intention construction at preparser.py lines
209-213 uses the keyword arguments type and target, which
Intention.__init__ (which expects intention_type, description,
filter_target) does not accept, so preparse_user_input raises TypeError
instead of returning (intention, false), and the cache is not updated. -/
theorem c6_failing :
    try_regex_match "edad mayor que 40"
      = some (Query.mk (some "Edad") (some "greater_than")
          (some (PyVal.scalar (PyScalar.int 40))) Option.none)
    ∧ pythonKwBindOk intentionInitParams intentionInitRequired
        preparserCallKeywords = false
    ∧ preparse_user_input (Preparser.empty Intention 1000) "edad mayor que 40"
        = (Except.error PyError.typeError, Preparser.empty Intention 1000)
    ∧ (preparse_user_input (Preparser.empty Intention 1000)
        "edad mayor que 40").2.cache = [] :=
  ⟨rfl, rfl, rfl, rfl⟩

end Datathon
